import Mathlib

/-!
Verification development for the healthcare visit/finance backend.

The embedding models the domain logic of the backend:
the visit lifecycle state machine, the treatment ledger with its derived
totals, and the finance search/aggregation pipeline.

Conventions of the embedding:
* Monetary values are embedded as exact rationals (`ℚ`); the binary64
  floating-point semantics of the JavaScript number type is modelled
  separately by `fl` for the numerical claims.
* Timestamps (`Date` values) are embedded as integers.
* MongoDB `ObjectId` values are embedded as naturals.
* Fallible request handlers are embedded as `Except DomainError _`.
  HTTP error responses are classified by the error kinds of the spec:
  a 400 on a status precondition is `invalidTransitionError`, the 400 on
  an already-active practitioner is `conflictError`, validator 400s are
  `validationError`, and 404s are `notFoundError`.
* `mongoose` pre-save hooks are applied by `saveVisit`: sub-document
  hooks (recomputing each treatment's `totalPrice`) run before the
  parent document's hook (recomputing `totalAmount` when the treatment
  list was modified), matching mongoose's documented middleware order.
-/

namespace Clinic

/-- Visit lifecycle states, from the `status` enum of the visit schema. -/
inductive VisitStatus
  | scheduled
  | in_progress
  | completed
  | cancelled
deriving DecidableEq, Repr

/-- Payment states, from the `paymentStatus` enum of the visit schema
(the source string "partial" is embedded as `partialPaid`). -/
inductive PaymentStatus
  | pending
  | partialPaid
  | paid
deriving DecidableEq, Repr

/-- Treatment categories, from the `category` enum of the treatment schema. -/
inductive Category
  | consultation
  | medication
  | procedure
  | lab_test
  | imaging
  | other
deriving DecidableEq, Repr

/-- User roles, from the `role` enum of the user schema. -/
inductive Role
  | patient
  | doctor
  | finance
deriving DecidableEq, Repr

/-- Error kinds of the spec, used to classify the controllers' error responses. -/
inductive DomainError
  | validationError
  | notFoundError
  | invalidTransitionError
  | conflictError
deriving DecidableEq, Repr

/-- A treatment line item, from `treatmentSchema`. -/
structure Treatment where
  id : Nat
  name : String
  description : Option String
  quantity : Nat
  unitPrice : ℚ
  totalPrice : ℚ
  category : Category
deriving DecidableEq, Repr

/-- A visit record, from `visitSchema`. -/
structure Visit where
  id : Nat
  patient : Nat
  doctor : Nat
  status : VisitStatus
  scheduledDate : Int
  startTime : Option Int
  endTime : Option Int
  chiefComplaint : Option String
  diagnosis : Option String
  notes : Option String
  treatments : List Treatment
  totalAmount : ℚ
  paymentStatus : PaymentStatus
  createdAt : Int
  updatedAt : Int
deriving DecidableEq, Repr

/-- A user record, from `userSchema` (fields the domain logic reads). -/
structure User where
  id : Nat
  name : String
  role : Role
  specialization : Option String
  isActive : Bool
deriving DecidableEq, Repr

/-- Sum of `totalPrice` over a treatment list, as the `reduce` inside
`visitSchema.methods.calculateTotalAmount` computes it. -/
def sumTotalPrice (ts : List Treatment) : ℚ :=
  ts.foldl (fun s t => s + t.totalPrice) 0

/-- `visitSchema.methods.calculateTotalAmount`: sets `totalAmount` to the sum
of the treatments' `totalPrice` values. -/
def calculateTotalAmount (v : Visit) : Visit :=
  { v with totalAmount := sumTotalPrice v.treatments }

/-- `treatmentSchema.pre("save")`: recomputes `totalPrice = unitPrice * quantity`
before a treatment sub-document is persisted. -/
def treatmentPreSave (t : Treatment) : Treatment :=
  { t with totalPrice := t.unitPrice * (t.quantity : ℚ) }

/-- `visit.save()`: runs the sub-document pre-save hooks, then the visit's
pre-save hook (which recomputes `totalAmount` when `isModified("treatments")`),
then persists with a fresh `updatedAt` timestamp. -/
def saveVisit (treatmentsModified : Bool) (v : Visit) (now : Int) : Visit :=
  let v1 := { v with treatments := v.treatments.map treatmentPreSave }
  let v2 := if treatmentsModified then calculateTotalAmount v1 else v1
  { v2 with updatedAt := now }

/-- Request body of `addTreatment` (`name, description, quantity, unitPrice,
category`); the route's validator guarantees `quantity ≥ 1` and `unitPrice ≥ 0`
when the fields are present.  There is no `totalPrice` field: the caller
cannot supply one. -/
structure TreatmentInput where
  name : String
  description : Option String
  quantity : Option Nat
  unitPrice : ℚ
  category : Option Category
deriving DecidableEq, Repr

/-- `addTreatment` on a found, owned visit: rejects terminal statuses, computes
`totalPrice = unitPrice * qty` with `qty = quantity || 1`, appends the
treatment, recomputes the visit total and saves.  `newId` is the id mongoose
generates for the new sub-document. -/
def addTreatment (v : Visit) (inp : TreatmentInput) (newId : Nat) (now : Int) :
    Except DomainError Visit :=
  if v.status = .completed ∨ v.status = .cancelled then
    .error .invalidTransitionError
  else
    let qty := inp.quantity.getD 1
    let t : Treatment :=
      { id := newId
        name := inp.name
        description := inp.description
        quantity := qty
        unitPrice := inp.unitPrice
        totalPrice := inp.unitPrice * (qty : ℚ)
        category := inp.category.getD .other }
    .ok (saveVisit true
      (calculateTotalAmount { v with treatments := v.treatments ++ [t] }) now)

/-- Request body of `updateTreatment`: every field optional, partial-update
semantics (`undefined` means "leave as is"). -/
structure TreatmentPatch where
  name : Option String
  description : Option String
  quantity : Option Nat
  unitPrice : Option ℚ
  category : Option Category
deriving DecidableEq, Repr

/-- Field-by-field application of a `TreatmentPatch` followed by the
controller's `treatment.totalPrice = treatment.unitPrice * treatment.quantity`. -/
def applyTreatmentPatch (u : TreatmentPatch) (t : Treatment) : Treatment :=
  let t1 : Treatment :=
    { t with
      name := u.name.getD t.name
      description := match u.description with
        | some d => some d
        | none => t.description
      quantity := u.quantity.getD t.quantity
      unitPrice := u.unitPrice.getD t.unitPrice
      category := u.category.getD t.category }
  { t1 with totalPrice := t1.unitPrice * (t1.quantity : ℚ) }

/-- Update the first list element satisfying `p` (the sub-document addressed by
`visit.treatments.id(treatmentId)`; ids are unique within a visit). -/
def updateFirst (p : Treatment → Bool) (f : Treatment → Treatment) :
    List Treatment → List Treatment
  | [] => []
  | t :: ts => if p t then f t :: ts else t :: updateFirst p f ts

/-- `updateTreatment` on a found, owned visit: rejects terminal statuses, fails
with `notFoundError` when no treatment has the given id, otherwise applies the
patch, recomputes the line total and the visit total, and saves. -/
def updateTreatment (v : Visit) (treatmentId : Nat) (u : TreatmentPatch) (now : Int) :
    Except DomainError Visit :=
  if v.status = .completed ∨ v.status = .cancelled then
    .error .invalidTransitionError
  else if (v.treatments.find? (fun t => decide (t.id = treatmentId))).isSome then
    let ts := updateFirst (fun t => decide (t.id = treatmentId)) (applyTreatmentPatch u)
      v.treatments
    .ok (saveVisit true (calculateTotalAmount { v with treatments := ts }) now)
  else
    .error .notFoundError

/-- `deleteTreatment` on a found, owned visit: rejects terminal statuses,
pulls every matching sub-document (no error when absent), recomputes the
visit total and saves. -/
def deleteTreatment (v : Visit) (treatmentId : Nat) (now : Int) :
    Except DomainError Visit :=
  if v.status = .completed ∨ v.status = .cancelled then
    .error .invalidTransitionError
  else
    .ok (saveVisit true
      (calculateTotalAmount
        { v with treatments := v.treatments.filter (fun t => decide (t.id ≠ treatmentId)) })
      now)

/-- `startVisit` on a found, owned visit: legal only from `scheduled`; sets
`in_progress` and `startTime = now`. -/
def startVisit (v : Visit) (now : Int) : Except DomainError Visit :=
  if v.status ≠ .scheduled then
    .error .invalidTransitionError
  else
    .ok (saveVisit false { v with status := .in_progress, startTime := some now } now)

/-- `completeVisit` on a found, owned visit: rejects `completed` and
`cancelled`; sets `completed` and `endTime = now`. -/
def completeVisit (v : Visit) (now : Int) : Except DomainError Visit :=
  if v.status = .completed then
    .error .invalidTransitionError
  else if v.status = .cancelled then
    .error .invalidTransitionError
  else
    .ok (saveVisit false { v with status := .completed, endTime := some now } now)

/-- `cancelVisit` on a found, owned visit: rejects `completed` and `cancelled`;
sets `cancelled`. -/
def cancelVisit (v : Visit) (now : Int) : Except DomainError Visit :=
  if v.status = .completed then
    .error .invalidTransitionError
  else if v.status = .cancelled then
    .error .invalidTransitionError
  else
    .ok (saveVisit false { v with status := .cancelled } now)

/-- `Visit.hasActiveVisit(doctorId)`: whether the store holds a visit of this
doctor with status `scheduled` or `in_progress`. -/
def hasActiveVisit (store : List Visit) (doctorId : Nat) : Bool :=
  store.any (fun v =>
    decide (v.doctor = doctorId ∧ (v.status = .scheduled ∨ v.status = .in_progress)))

/-- The record `Visit.create` produces in `createVisit`: controller-supplied
fields plus the schema defaults (`status` is passed as `"scheduled"`,
`totalAmount` defaults to `0`, `paymentStatus` to `pending`). -/
def newVisit (patientId doctorId : Nat) (scheduledDate : Int)
    (chiefComplaint : Option String) (now : Int) (newId : Nat) : Visit :=
  { id := newId
    patient := patientId
    doctor := doctorId
    status := .scheduled
    scheduledDate := scheduledDate
    startTime := none
    endTime := none
    chiefComplaint := chiefComplaint
    diagnosis := none
    notes := none
    treatments := []
    totalAmount := 0
    paymentStatus := .pending
    createdAt := now
    updatedAt := now }

/-- The doctor lookup of `createVisit`: `User.findOne({_id, role: "doctor",
isActive: true})`. -/
def findActiveDoctor (users : List User) (doctorId : Nat) : Option User :=
  users.find? (fun u => decide (u.id = doctorId ∧ u.role = .doctor ∧ u.isActive = true))

/-- `createVisit`, including the route's `createVisitValidation` middleware
(which rejects a `scheduledDate` earlier than the current time before the
controller runs), the doctor lookup, the active-visit check and the creation
with schema defaults. -/
def createVisit (users : List User) (store : List Visit) (patientId doctorId : Nat)
    (scheduledDate : Int) (chiefComplaint : Option String) (now : Int) (newId : Nat) :
    Except DomainError Visit :=
  if scheduledDate < now then
    .error .validationError
  else
    match findActiveDoctor users doctorId with
    | none => .error .notFoundError
    | some _ =>
      if hasActiveVisit store doctorId then
        .error .conflictError
      else
        .ok (newVisit patientId doctorId scheduledDate chiefComplaint now newId)

/-- The `["pending", "partial", "paid"].includes(paymentStatus)` guard of
`updatePaymentStatus`, as a parser of the raw request value. -/
def parsePaymentStatus (raw : String) : Option PaymentStatus :=
  if raw = "pending" then some .pending
  else if raw = "partial" then some .partialPaid
  else if raw = "paid" then some .paid
  else none

/-- `updatePaymentStatus`: validates the raw value, looks the visit up by id,
sets `paymentStatus` and saves.  No status precondition is checked. -/
def updatePaymentStatus (store : List Visit) (visitId : Nat) (raw : String)
    (now : Int) : Except DomainError Visit :=
  match parsePaymentStatus raw with
  | none => .error .validationError
  | some ps =>
    match store.find? (fun v => decide (v.id = visitId)) with
    | none => .error .notFoundError
    | some v => .ok (saveVisit false { v with paymentStatus := ps } now)

/-- Sortable keys of the `searchVisits` `$sort` stage (the fields the finance
screens request; `scheduledDate` is the default). -/
inductive SortKey
  | scheduledDate
  | totalAmount
  | createdAt
deriving DecidableEq, Repr

/-- Sort direction of the `$sort` stage; `desc` is the default. -/
inductive SortOrder
  | asc
  | desc
deriving DecidableEq, Repr

/-- Query parameters of `searchVisits`.  `page` and `limit` arrive as the
parsed integers, `sortBy`/`sortOrder` with their defaults already applied. -/
structure SearchQuery where
  visitId : Option Nat
  doctorName : Option String
  patientName : Option String
  status : Option VisitStatus
  paymentStatus : Option PaymentStatus
  startDate : Option Int
  endDate : Option Int
  page : Nat
  limit : Nat
  sortBy : SortKey
  sortOrder : SortOrder
deriving DecidableEq, Repr

/-- The structural `query` object of `searchVisits`: the `$match` conditions
assembled from `visitId`, `status`, `paymentStatus` and the
`scheduledDate` range (`$gte`/`$lte`). -/
def structMatch (q : SearchQuery) (v : Visit) : Bool :=
  (match q.visitId with
    | some i => decide (v.id = i)
    | none => true) &&
  (match q.status with
    | some s => decide (v.status = s)
    | none => true) &&
  (match q.paymentStatus with
    | some p => decide (v.paymentStatus = p)
    | none => true) &&
  (match q.startDate with
    | some d => decide (d ≤ v.scheduledDate)
    | none => true) &&
  (match q.endDate with
    | some d => decide (v.scheduledDate ≤ d)
    | none => true)

/-- A visit after the `$lookup`/`$unwind`/`$project` stages: the record joined
with the display names of its patient and doctor. -/
structure JoinedVisit where
  visit : Visit
  patientName : String
  doctorName : String
deriving DecidableEq, Repr

/-- ASCII lower-casing of one character (the effect of the `$options: "i"`
regex flag on the name characters involved). -/
def lowerChar (c : Char) : Char :=
  if 65 ≤ c.toNat ∧ c.toNat ≤ 90 then Char.ofNat (c.toNat + 32) else c

/-- Whether `pat` occurs at the head of `hay`. -/
def headMatch : List Char → List Char → Bool
  | [], _ => true
  | _ :: _, [] => false
  | p :: ps, h :: hs => p = h && headMatch ps hs

/-- Whether `pat` occurs as a contiguous run inside `hay`. -/
def hasSubChars : List Char → List Char → Bool
  | pat, [] => pat.isEmpty
  | pat, h :: hs => headMatch pat (h :: hs) || hasSubChars pat hs

/-- Case-insensitive substring match: the `$regex: name, $options: "i"` filter
of `searchVisits` for patterns without regex metacharacters (the spec's
"substring case-insensitive" semantics). -/
def containsCI (pat hay : String) : Bool :=
  hasSubChars (pat.data.map lowerChar) (hay.data.map lowerChar)

/-- The two `$lookup` + `$unwind` stages: resolve `patient` and `doctor` to
user records and keep only visits where both resolve (a bare `$unwind` drops
documents with an empty lookup array). -/
def lookupJoin (users : List User) (vs : List Visit) : List JoinedVisit :=
  vs.filterMap (fun v =>
    match users.find? (fun u => decide (u.id = v.patient)),
          users.find? (fun u => decide (u.id = v.doctor)) with
    | some p, some d => some { visit := v, patientName := p.name, doctorName := d.name }
    | _, _ => none)

/-- The post-join `$match` stages on `patientDetails.name` / `doctorDetails.name`. -/
def nameMatch (q : SearchQuery) (j : JoinedVisit) : Bool :=
  (match q.patientName with
    | some p => containsCI p j.patientName
    | none => true) &&
  (match q.doctorName with
    | some p => containsCI p j.doctorName
    | none => true)

/-- The pipeline of `searchVisits` up to and including the name filters:
structural `$match`, join, name `$match` — the filtered-pre-pagination set. -/
def filteredJoined (users : List User) (store : List Visit) (q : SearchQuery) :
    List JoinedVisit :=
  (lookupJoin users (store.filter (structMatch q))).filter (nameMatch q)

/-- `total`: the `$count` of the filtered pipeline, taken before sort and
pagination. -/
def searchTotal (users : List User) (store : List Visit) (q : SearchQuery) : Nat :=
  (filteredJoined users store q).length

/-- The sort key projection of the `$sort` stage. -/
def keyVal (k : SortKey) (j : JoinedVisit) : ℚ :=
  match k with
  | .scheduledDate => (j.visit.scheduledDate : ℚ)
  | .totalAmount => j.visit.totalAmount
  | .createdAt => (j.visit.createdAt : ℚ)

/-- The comparison relation of the `$sort` stage: `{[sortBy]: sortOrder}`.
No further key is compared — in particular no tie-break on `id`. -/
def sortLe (q : SearchQuery) (a b : JoinedVisit) : Prop :=
  match q.sortOrder with
  | .asc => keyVal q.sortBy a ≤ keyVal q.sortBy b
  | .desc => keyVal q.sortBy b ≤ keyVal q.sortBy a

instance (q : SearchQuery) (a b : JoinedVisit) : Decidable (sortLe q a b) := by
  unfold sortLe
  rcases q.sortOrder with _ | _ <;> exact inferInstance

instance (q : SearchQuery) : IsTotal JoinedVisit (sortLe q) := by
  constructor
  intro a b
  unfold sortLe
  rcases q.sortOrder with _ | _ <;> exact le_total ..

instance (q : SearchQuery) : IsTrans JoinedVisit (sortLe q) := by
  constructor
  intro a b c h1 h2
  unfold sortLe at h1 h2 ⊢
  cases hq : q.sortOrder
  · rw [hq] at h1 h2
    exact le_trans h1 h2
  · rw [hq] at h1 h2
    exact le_trans h2 h1

instance (q : SearchQuery) : DecidableRel (sortLe q) :=
  fun _ _ => inferInstance

/-- The `$sort` stage applied to the filtered set, embedded as a stable sort
on the single requested key: records the comparator does not separate stay in
pipeline order. -/
def searchSorted (users : List User) (store : List Visit) (q : SearchQuery) :
    List JoinedVisit :=
  List.insertionSort (sortLe q) (filteredJoined users store q)

/-- The `$skip ((page−1)·limit)` and `$limit limit` stages: the items of the
requested page. -/
def searchItems (users : List User) (store : List Visit) (q : SearchQuery) :
    List JoinedVisit :=
  ((searchSorted users store q).drop ((q.page - 1) * q.limit)).take q.limit

/-- `pages: Math.ceil(total / limit)`. -/
def searchPages (users : List User) (store : List Visit) (q : SearchQuery) : Nat :=
  (⌈(searchTotal users store q : ℚ) / (q.limit : ℚ)⌉).toNat

/-- The `statistics` block of the `searchVisits` response. -/
structure Stats where
  totalRevenue : ℚ
  completedVisits : Nat
  pendingPayments : Nat
  partialPayments : Nat
  paidVisits : Nat
deriving DecidableEq, Repr

/-- The `$group` accumulators of the statistics aggregation: revenue summed
over `totalAmount`, and the `$cond`-counted status/payment buckets. -/
def computeStats (vs : List Visit) : Stats :=
  { totalRevenue := (vs.map (fun v => v.totalAmount)).sum
    completedVisits := (vs.filter (fun v => decide (v.status = .completed))).length
    pendingPayments := (vs.filter (fun v => decide (v.paymentStatus = .pending))).length
    partialPayments := (vs.filter (fun v => decide (v.paymentStatus = .partialPaid))).length
    paidVisits := (vs.filter (fun v => decide (v.paymentStatus = .paid))).length }

/-- The statistics aggregation of `searchVisits` as the code runs it: its
pipeline re-applies only the structural `query` `$match` — it performs no
join and no name filtering. -/
def searchStatistics (store : List Visit) (q : SearchQuery) : Stats :=
  computeStats (store.filter (structMatch q))

/-- Modelled from the spec: statistics "computed over the filtered-pre-pagination
set", i.e. over the set that passed all filters including the name filters.
Stated for comparison with `searchStatistics`, the aggregation the code runs. -/
def specStatistics (users : List User) (store : List Visit) (q : SearchQuery) : Stats :=
  computeStats ((filteredJoined users store q).map (fun j => j.visit))

/-- The full `searchVisits` response (the fields the claims speak about). -/
structure SearchResult where
  visits : List JoinedVisit
  total : Nat
  page : Nat
  pages : Nat
  statistics : Stats
deriving DecidableEq, Repr

/-- `searchVisits`: filter, join, name-filter, count, sort, paginate, and the
separate statistics aggregation. -/
def searchVisits (users : List User) (store : List Visit) (q : SearchQuery) :
    SearchResult :=
  { visits := searchItems users store q
    total := searchTotal users store q
    page := q.page
    pages := searchPages users store q
    statistics := searchStatistics store q }

/-- Round a rational to the nearest integer, ties to even — the rounding of
IEEE-754 round-to-nearest-even at integer granularity. -/
def roundEven (x : ℚ) : ℤ :=
  if x - ⌊x⌋ < 1 / 2 then ⌊x⌋
  else if 1 / 2 < x - ⌊x⌋ then ⌊x⌋ + 1
  else if ⌊x⌋ % 2 = 0 then ⌊x⌋ else ⌊x⌋ + 1

/-- IEEE-754 binary64 rounding of a real (rational) value: the significand is
rounded to 53 bits, nearest, ties to even.  The exponent is unbounded (no
overflow/underflow handling), which agrees with binary64 throughout the normal
range — the semantics of arithmetic on JavaScript `Number`s for the magnitudes
involved here. -/
def fl (q : ℚ) : ℚ :=
  if q = 0 then 0
  else if 0 < q then
    (roundEven (q * (2 : ℚ) ^ (52 - Int.log 2 q)) : ℚ) * (2 : ℚ) ^ (Int.log 2 q - 52)
  else
    -((roundEven (-q * (2 : ℚ) ^ (52 - Int.log 2 (-q))) : ℚ)
      * (2 : ℚ) ^ (Int.log 2 (-q) - 52))

/-- JavaScript `x * y` on `Number`s: the exact product, rounded to binary64. -/
def jsMul (x y : ℚ) : ℚ :=
  fl (x * y)

/-- JavaScript `x + y` on `Number`s: the exact sum, rounded to binary64. -/
def jsAdd (x y : ℚ) : ℚ :=
  fl (x + y)

/-- The `totalPrice = unitPrice * qty` computation of `addTreatment` under the
binary64 semantics the JavaScript engine actually uses for it. -/
def totalPriceFloat (unitPrice : ℚ) (qty : Nat) : ℚ :=
  jsMul unitPrice (qty : ℚ)

/-- The binary64 value the literal `0.1` denotes: the representable rational
nearest to one tenth. -/
def tenthFloat : ℚ :=
  3602879701896397 / 36028797018963968

/-! Concrete records used by witnesses and counterexamples. -/

/-- A freshly scheduled visit with an empty ledger. -/
def sampleVisit : Visit :=
  { id := 1
    patient := 10
    doctor := 20
    status := .scheduled
    scheduledDate := 100
    startTime := none
    endTime := none
    chiefComplaint := none
    diagnosis := none
    notes := none
    treatments := []
    totalAmount := 0
    paymentStatus := .pending
    createdAt := 50
    updatedAt := 50 }

/-- A visit already in the terminal `completed` status. -/
def doneVisit : Visit :=
  { sampleVisit with status := .completed }

/-- A treatment request: `{quantity: 2, unitPrice: 50}`. -/
def sampleInput : TreatmentInput :=
  { name := "consult"
    description := none
    quantity := some 2
    unitPrice := 50
    category := none }

/-- A treatment patch setting only `unitPrice`. -/
def samplePatch : TreatmentPatch :=
  { name := none
    description := none
    quantity := none
    unitPrice := some 25
    category := none }

/-- The visit `addTreatment sampleVisit sampleInput 1 9` persists. -/
def addedVisit : Visit :=
  { sampleVisit with
    treatments :=
      [{ id := 1
         name := "consult"
         description := none
         quantity := 2
         unitPrice := 50
         totalPrice := 100
         category := .other }]
    totalAmount := 100
    updatedAt := 9 }

/-- A patient user. -/
def samplePatient : User :=
  { id := 10, name := "pat", role := .patient, specialization := none, isActive := true }

/-- An active doctor user. -/
def sampleDoctor : User :=
  { id := 20, name := "doc", role := .doctor, specialization := some "gp", isActive := true }

/-- The user table holding `samplePatient` and `sampleDoctor`. -/
def sampleUsers : List User :=
  [samplePatient, sampleDoctor]

/-- A search query with every filter empty and the code's defaults
(`page = 1`, `limit = 20`, sort by `scheduledDate` descending). -/
def defaultQuery : SearchQuery :=
  { visitId := none
    doctorName := none
    patientName := none
    status := none
    paymentStatus := none
    startDate := none
    endDate := none
    page := 1
    limit := 20
    sortBy := .scheduledDate
    sortOrder := .desc }

/-- A second patient, named differently from `samplePatient`. -/
def annPatient : User :=
  { id := 11, name := "ann", role := .patient, specialization := none, isActive := true }

/-- Users for the name-filter counterexample. -/
def nameUsers : List User :=
  [samplePatient, annPatient, sampleDoctor]

/-- A pending visit of patient `pat`. -/
def patVisit : Visit :=
  { sampleVisit with id := 1, patient := 10 }

/-- A pending visit of patient `ann`. -/
def annVisit : Visit :=
  { sampleVisit with id := 2, patient := 11 }

/-- Store for the name-filter counterexample: one visit per patient. -/
def nameStore : List Visit :=
  [patVisit, annVisit]

/-- The query filtering on the patient-name substring `"ann"`. -/
def nameQuery : SearchQuery :=
  { defaultQuery with patientName := some "ann" }

/-- A visit with id `2`; its sort key ties with `visitOne`. -/
def visitTwo : Visit :=
  { sampleVisit with id := 2 }

/-- A visit with id `1`; its sort key ties with `visitTwo`. -/
def visitOne : Visit :=
  { sampleVisit with id := 1 }

/-- A store holding two equal-key visits with the larger id first. -/
def tieStore : List Visit :=
  [visitTwo, visitOne]

/-- `visitTwo` after the join stage. -/
def joinedTwo : JoinedVisit :=
  { visit := visitTwo, patientName := "pat", doctorName := "doc" }

/-- `visitOne` after the join stage. -/
def joinedOne : JoinedVisit :=
  { visit := visitOne, patientName := "pat", doctorName := "doc" }

/-! Helper lemmas about `saveVisit`. -/

/-- A save with a modified treatment list always persists `totalAmount` equal
to the sum of the persisted treatments' `totalPrice`. -/
lemma saveVisit_true_totalAmount (v : Visit) (now : Int) :
    (saveVisit true v now).totalAmount = sumTotalPrice (saveVisit true v now).treatments := by
  simp [saveVisit, calculateTotalAmount]

/-- Every treatment persisted through a save satisfies the product invariant,
because the sub-document pre-save hook recomputes its `totalPrice`. -/
lemma saveVisit_treatments_product (b : Bool) (v : Visit) (now : Int) :
    ∀ t ∈ (saveVisit b v now).treatments,
      t.totalPrice = t.unitPrice * (t.quantity : ℚ) := by
  intro t ht
  have hmem : t ∈ v.treatments.map treatmentPreSave := by
    cases b <;> simpa [saveVisit, calculateTotalAmount] using ht
  obtain ⟨s, _, rfl⟩ := List.mem_map.mp hmem
  simp [treatmentPreSave]

/-- A treatment already satisfying the product invariant is unchanged by the
sub-document pre-save hook. -/
lemma treatmentPreSave_eq_self {t : Treatment}
    (h : t.totalPrice = t.unitPrice * (t.quantity : ℚ)) :
    treatmentPreSave t = t := by
  cases t
  simp_all [treatmentPreSave]

/-- A treatment list satisfying the product invariant is unchanged by the
sub-document pre-save hooks. -/
lemma map_treatmentPreSave_eq_self {ts : List Treatment}
    (h : ∀ t ∈ ts, t.totalPrice = t.unitPrice * (t.quantity : ℚ)) :
    ts.map treatmentPreSave = ts := by
  induction ts with
  | nil => rfl
  | cons a l ih =>
    rw [List.map_cons, treatmentPreSave_eq_self (h a (List.mem_cons_self a l)),
      ih (fun t ht => h t (List.mem_cons_of_mem a ht))]

/-! Claim C1. -/

/-- Claim C1: after each persisted ledger mutation (`addTreatment`,
`updateTreatment`, `deleteTreatment`), the visit's `totalAmount` equals the
sum of `totalPrice` over its treatment collection. -/
theorem ledger_mutation_total_amount_invariant
    (v v' : Visit) (inp : TreatmentInput) (u : TreatmentPatch)
    (tid newId : Nat) (now : Int) :
    (addTreatment v inp newId now = .ok v' →
      v'.totalAmount = sumTotalPrice v'.treatments) ∧
    (updateTreatment v tid u now = .ok v' →
      v'.totalAmount = sumTotalPrice v'.treatments) ∧
    (deleteTreatment v tid now = .ok v' →
      v'.totalAmount = sumTotalPrice v'.treatments) := by
  refine ⟨?_, ?_, ?_⟩ <;> intro h
  · rw [addTreatment] at h
    split at h
    · simp at h
    · obtain rfl : _ = v' := Except.ok.inj h
      exact saveVisit_true_totalAmount ..
  · rw [updateTreatment] at h
    split at h
    · simp at h
    · split at h
      · obtain rfl : _ = v' := Except.ok.inj h
        exact saveVisit_true_totalAmount ..
      · simp at h
  · rw [deleteTreatment] at h
    split at h
    · simp at h
    · obtain rfl : _ = v' := Except.ok.inj h
      exact saveVisit_true_totalAmount ..

/-- Witness for C1: adding `{quantity: 2, unitPrice: 50}` to a fresh visit
persists `addedVisit`, whose `totalAmount` is the treatment sum `100`. -/
theorem ledger_mutation_total_amount_invariant_witness :
    addTreatment sampleVisit sampleInput 1 9 = .ok addedVisit ∧
    addedVisit.totalAmount = sumTotalPrice addedVisit.treatments := by
  have h : addTreatment sampleVisit sampleInput 1 9 = .ok addedVisit := by
    rw [addTreatment, if_neg (by simp [sampleVisit])]
    norm_num [sampleVisit, sampleInput, addedVisit, saveVisit,
      calculateTotalAmount, treatmentPreSave, sumTotalPrice]
  exact ⟨h,
    (ledger_mutation_total_amount_invariant sampleVisit addedVisit sampleInput
      samplePatch 0 1 9).1 h⟩

/-! Claim C2. -/

/-- Claim C2: after any create or update of a treatment, its persisted
`totalPrice` equals `unitPrice × quantity`; the request bodies
(`TreatmentInput`, `TreatmentPatch`) carry no `totalPrice` field, so the value
is never independently settable. -/
theorem treatment_total_price_derived
    (v v' : Visit) (inp : TreatmentInput) (u : TreatmentPatch)
    (tid newId : Nat) (now : Int)
    (h : addTreatment v inp newId now = .ok v' ∨
      updateTreatment v tid u now = .ok v') :
    ∀ t ∈ v'.treatments, t.totalPrice = t.unitPrice * (t.quantity : ℚ) := by
  rcases h with h | h
  · rw [addTreatment] at h
    split at h
    · simp at h
    · obtain rfl : _ = v' := Except.ok.inj h
      exact saveVisit_treatments_product _ _ _
  · rw [updateTreatment] at h
    split at h
    · simp at h
    · split at h
      · obtain rfl : _ = v' := Except.ok.inj h
        exact saveVisit_treatments_product _ _ _
      · simp at h

/-- Witness for C2: the treatment persisted by the witness mutation of C1 has
`totalPrice = 50 × 2 = 100`. -/
theorem treatment_total_price_derived_witness :
    addTreatment sampleVisit sampleInput 1 9 = .ok addedVisit ∧
    ∀ t ∈ addedVisit.treatments, t.totalPrice = t.unitPrice * (t.quantity : ℚ) := by
  have h : addTreatment sampleVisit sampleInput 1 9 = .ok addedVisit := by
    rw [addTreatment, if_neg (by simp [sampleVisit])]
    norm_num [sampleVisit, sampleInput, addedVisit, saveVisit,
      calculateTotalAmount, treatmentPreSave, sumTotalPrice]
  exact ⟨h,
    treatment_total_price_derived sampleVisit addedVisit sampleInput samplePatch
      0 1 9 (Or.inl h)⟩

/-! Claim C3. -/

/-- Counterexample to C3 as stated: the table allows `scheduled` to move only
to `in_progress` or `cancelled`, but `completeVisit` accepts a `scheduled`
visit — it only rejects `completed` and `cancelled` — so the transition
`scheduled → completed` succeeds. -/
theorem scheduled_visit_completes_directly :
    sampleVisit.status = .scheduled ∧
    completeVisit sampleVisit 7 =
      .ok { sampleVisit with status := .completed, endTime := some 7, updatedAt := 7 } := by
  constructor
  · rfl
  · rfl

/-- Claim C3 as amended: the transition table the code implements is
`scheduled → {in_progress, completed, cancelled}`,
`in_progress → {completed, cancelled}`, `completed → {}`, `cancelled → {}`;
every rejected attempt fails with `invalidTransitionError` and persists
nothing. -/
theorem lifecycle_transition_table (v : Visit) (now : Int) :
    ((startVisit v now).isOk = true ↔ v.status = .scheduled) ∧
    ((completeVisit v now).isOk = true ↔
      v.status = .scheduled ∨ v.status = .in_progress) ∧
    ((cancelVisit v now).isOk = true ↔
      v.status = .scheduled ∨ v.status = .in_progress) ∧
    ((startVisit v now).isOk = false →
      startVisit v now = .error .invalidTransitionError) ∧
    ((completeVisit v now).isOk = false →
      completeVisit v now = .error .invalidTransitionError) ∧
    ((cancelVisit v now).isOk = false →
      cancelVisit v now = .error .invalidTransitionError) := by
  rcases hv : v.status <;>
    simp [startVisit, completeVisit, cancelVisit, Except.isOk, Except.toBool, hv]

/-- Witness for the amended C3: a terminal `completed` visit rejects `start`
with `invalidTransitionError`. -/
theorem lifecycle_transition_table_witness :
    (startVisit doneVisit 3).isOk = false ∧
    startVisit doneVisit 3 = .error .invalidTransitionError := by
  have h : (startVisit doneVisit 3).isOk = false := by
    simp [startVisit, doneVisit, sampleVisit, Except.isOk, Except.toBool]
  exact ⟨h, (lifecycle_transition_table doneVisit 3).2.2.2.1 h⟩

/-! Claim C4. -/

/-- Claim C4: on a visit whose status is `completed` or `cancelled`, all three
ledger mutations fail with `invalidTransitionError`; the error branch returns
before anything is recomputed or saved, so the stored visit is unchanged. -/
theorem terminal_visit_rejects_ledger_mutations
    (v : Visit) (inp : TreatmentInput) (u : TreatmentPatch)
    (tid newId : Nat) (now : Int)
    (h : v.status = .completed ∨ v.status = .cancelled) :
    addTreatment v inp newId now = .error .invalidTransitionError ∧
    updateTreatment v tid u now = .error .invalidTransitionError ∧
    deleteTreatment v tid now = .error .invalidTransitionError := by
  rw [addTreatment, updateTreatment, deleteTreatment, if_pos h, if_pos h, if_pos h]
  exact ⟨rfl, rfl, rfl⟩

/-- Witness for C4: a `completed` visit rejects all three ledger mutations. -/
theorem terminal_visit_rejects_ledger_mutations_witness :
    (doneVisit.status = .completed ∨ doneVisit.status = .cancelled) ∧
    (addTreatment doneVisit sampleInput 1 9 = .error .invalidTransitionError ∧
      updateTreatment doneVisit 1 samplePatch 9 = .error .invalidTransitionError ∧
      deleteTreatment doneVisit 1 9 = .error .invalidTransitionError) :=
  ⟨Or.inl rfl,
    terminal_visit_rejects_ledger_mutations doneVisit sampleInput samplePatch 1 1 9
      (Or.inl rfl)⟩

/-! Claim C9. -/

/-- Claim C9: `createVisit` fails with `validationError` when the scheduled
date is in the past, fails with `conflictError` when the target doctor already
has an active visit (one with status `scheduled` or `in_progress`), and on
success returns a new visit in `scheduled` with `totalAmount = 0` and
`paymentStatus = pending`. -/
theorem create_visit_rules
    (users : List User) (store : List Visit) (patientId doctorId : Nat)
    (sd : Int) (cc : Option String) (now : Int) (newId : Nat) :
    (sd < now →
      createVisit users store patientId doctorId sd cc now newId =
        .error .validationError) ∧
    (¬ sd < now → (findActiveDoctor users doctorId).isSome = true →
      hasActiveVisit store doctorId = true →
      createVisit users store patientId doctorId sd cc now newId =
        .error .conflictError) ∧
    (¬ sd < now → (findActiveDoctor users doctorId).isSome = true →
      hasActiveVisit store doctorId = false →
      createVisit users store patientId doctorId sd cc now newId =
        .ok (newVisit patientId doctorId sd cc now newId)) ∧
    ((newVisit patientId doctorId sd cc now newId).status = .scheduled ∧
      (newVisit patientId doctorId sd cc now newId).totalAmount = 0 ∧
      (newVisit patientId doctorId sd cc now newId).paymentStatus = .pending) ∧
    (hasActiveVisit store doctorId = true ↔
      ∃ v ∈ store, v.doctor = doctorId ∧
        (v.status = .scheduled ∨ v.status = .in_progress)) := by
  refine ⟨?_, ?_, ?_, ⟨rfl, rfl, rfl⟩, ?_⟩
  · intro hpast
    rw [createVisit, if_pos hpast]
  · intro hpast hdoc hactive
    obtain ⟨u, hu⟩ := Option.isSome_iff_exists.mp hdoc
    rw [createVisit, if_neg hpast, hu, hactive]
    rfl
  · intro hpast hdoc hactive
    obtain ⟨u, hu⟩ := Option.isSome_iff_exists.mp hdoc
    rw [createVisit, if_neg hpast, hu, hactive]
    rfl
  · simp [hasActiveVisit, List.any_eq_true, decide_eq_true_eq]

/-- Witness for C9: with an active registered doctor and an empty visit store,
creation at a future date succeeds with the scheduled/zero/pending record. -/
theorem create_visit_rules_witness :
    (¬ (100 : Int) < 50 ∧ (findActiveDoctor sampleUsers 20).isSome = true ∧
      hasActiveVisit [] 20 = false) ∧
    createVisit sampleUsers [] 10 20 100 none 50 7 =
      .ok (newVisit 10 20 100 none 50 7) := by
  have h1 : ¬ (100 : Int) < 50 := by decide
  have h2 : (findActiveDoctor sampleUsers 20).isSome = true := by
    simp [findActiveDoctor, sampleUsers, samplePatient, sampleDoctor]
  have h3 : hasActiveVisit [] 20 = false := rfl
  exact ⟨⟨h1, h2, h3⟩,
    (create_visit_rules sampleUsers [] 10 20 100 none 50 7).2.2.1 h1 h2 h3⟩

/-! Claim C10. -/

/-- Claim C10: `updatePaymentStatus` rejects any raw value outside
`{"pending", "partial", "paid"}` with a validation error and a missing visit
with `notFoundError` (both before anything is written); on success it saves the
found visit with only `paymentStatus` (and the `updatedAt` audit stamp)
changed, with no precondition on the visit's lifecycle status — terminal
visits included. -/
theorem update_payment_status_rules
    (store : List Visit) (vid : Nat) (raw : String) (now : Int) :
    (parsePaymentStatus raw = none →
      updatePaymentStatus store vid raw now = .error .validationError) ∧
    (∀ ps, parsePaymentStatus raw = some ps →
      store.find? (fun v => decide (v.id = vid)) = none →
      updatePaymentStatus store vid raw now = .error .notFoundError) ∧
    (∀ ps v, parsePaymentStatus raw = some ps →
      store.find? (fun v => decide (v.id = vid)) = some v →
      (∀ t ∈ v.treatments, t.totalPrice = t.unitPrice * (t.quantity : ℚ)) →
      updatePaymentStatus store vid raw now =
        .ok { v with paymentStatus := ps, updatedAt := now }) ∧
    ((parsePaymentStatus raw).isSome = true ↔
      raw = "pending" ∨ raw = "partial" ∨ raw = "paid") := by
  refine ⟨?_, ?_, ?_, ?_⟩
  · intro hraw
    rw [updatePaymentStatus, hraw]
  · intro ps hraw hfind
    rw [updatePaymentStatus, hraw, hfind]
  · intro ps v hraw hfind hconsistent
    rw [updatePaymentStatus, hraw, hfind]
    simp [saveVisit, map_treatmentPreSave_eq_self hconsistent]
  · rw [parsePaymentStatus]
    split_ifs <;> simp_all

/-- Witness for C10: setting `"partial"` on a `completed` visit succeeds and
changes only `paymentStatus` and `updatedAt`. -/
theorem update_payment_status_rules_witness :
    (parsePaymentStatus "partial" = some .partialPaid ∧
      [doneVisit].find? (fun v => decide (v.id = 1)) = some doneVisit ∧
      (∀ t ∈ doneVisit.treatments, t.totalPrice = t.unitPrice * (t.quantity : ℚ))) ∧
    updatePaymentStatus [doneVisit] 1 "partial" 9 =
      .ok { doneVisit with paymentStatus := .partialPaid, updatedAt := 9 } := by
  have h1 : parsePaymentStatus "partial" = some .partialPaid := by
    decide
  have h2 : [doneVisit].find? (fun v => decide (v.id = 1)) = some doneVisit := by
    simp [List.find?, doneVisit, sampleVisit]
  have h3 : ∀ t ∈ doneVisit.treatments, t.totalPrice = t.unitPrice * (t.quantity : ℚ) := by
    intro t ht
    simp [doneVisit, sampleVisit] at ht
  exact ⟨⟨h1, h2, h3⟩,
    (update_payment_status_rules [doneVisit] 1 "partial" 9).2.2.1 .partialPaid
      doneVisit h1 h2 h3⟩

/-! Claim C5. -/

/-- Counterexample to C5 as stated: the statistics aggregation of
`searchVisits` re-runs only the structural `$match` and never joins users, so
with a patient-name filter the statistics cover visits the name filter
excludes.  Here the filtered-pre-pagination set holds only `ann`'s visit, yet
the returned statistics count both pending visits. -/
theorem search_statistics_ignore_name_filters :
    (searchVisits nameUsers nameStore nameQuery).statistics.pendingPayments = 2 ∧
    (specStatistics nameUsers nameStore nameQuery).pendingPayments = 1 ∧
    (searchVisits nameUsers nameStore nameQuery).statistics ≠
      specStatistics nameUsers nameStore nameQuery := by
  have ha : (searchVisits nameUsers nameStore nameQuery).statistics.pendingPayments = 2 := by
    decide
  have hb : (specStatistics nameUsers nameStore nameQuery).pendingPayments = 1 := by
    decide
  refine ⟨ha, hb, fun h => ?_⟩
  have hc := congrArg Stats.pendingPayments h
  rw [ha, hb] at hc
  exact absurd hc (by decide)

/-- Claim C5 as amended: the returned statistics are computed over the set
passing the structural filters only (visit id, status, payment status, date
range); they are independent of `page` and `limit` as claimed, but also of the
patient-name and doctor-name filters, which they ignore. -/
theorem search_statistics_structural_only
    (store : List Visit) (q qq : SearchQuery)
    (h1 : q.visitId = qq.visitId) (h2 : q.status = qq.status)
    (h3 : q.paymentStatus = qq.paymentStatus)
    (h4 : q.startDate = qq.startDate) (h5 : q.endDate = qq.endDate) :
    searchStatistics store q = searchStatistics store qq := by
  rw [searchStatistics, searchStatistics]
  have hfilter : store.filter (structMatch q) = store.filter (structMatch qq) := by
    apply List.filter_congr
    intro v _
    rw [structMatch, structMatch, h1, h2, h3, h4, h5]
  rw [hfilter]

/-- Witness for the amended C5: altering page, limit and the patient-name
filter leaves the statistics unchanged. -/
theorem search_statistics_structural_only_witness :
    ({ nameQuery with page := 7, limit := 3 } : SearchQuery).visitId =
      defaultQuery.visitId ∧
    searchStatistics nameStore { nameQuery with page := 7, limit := 3 } =
      searchStatistics nameStore defaultQuery :=
  ⟨rfl,
    search_statistics_structural_only nameStore
      { nameQuery with page := 7, limit := 3 } defaultQuery rfl rfl rfl rfl rfl⟩

/-! Claim C6. -/

/-- `Math.ceil` of a natural division agrees with the rounded-up integer
division formula. -/
lemma ceil_natDiv (t k : ℕ) (hk : 1 ≤ k) :
    ⌈(t : ℚ) / (k : ℚ)⌉ = ((t + k - 1) / k : ℕ) := by
  have hk0 : (0 : ℚ) < (k : ℚ) := by exact_mod_cast hk
  have hdm := Nat.div_add_mod (t + k - 1) k
  have hmlt : (t + k - 1) % k < k := Nat.mod_lt _ (by omega)
  have h1 : t ≤ k * ((t + k - 1) / k) := by omega
  have h2 : k * ((t + k - 1) / k) < t + k := by omega
  set d := (t + k - 1) / k with hddef
  have h1q : (t : ℚ) ≤ (k : ℚ) * (d : ℚ) := by exact_mod_cast h1
  have h2q : (k : ℚ) * (d : ℚ) < (t : ℚ) + (k : ℚ) := by exact_mod_cast h2
  have hcast : (((d : ℕ) : ℤ) : ℚ) = (d : ℚ) := by norm_cast
  rw [Int.ceil_eq_iff]
  constructor
  · rw [hcast, lt_div_iff₀ hk0]
    nlinarith [h2q]
  · rw [hcast, div_le_iff₀ hk0]
    nlinarith [h1q]

/-- Chopping a list into `n` consecutive chunks of size `k` and concatenating
them in order reproduces the list, provided `n` chunks reach its end. -/
lemma flatten_chunks {α : Type} (k : ℕ) :
    ∀ (n : ℕ) (l : List α), l.length ≤ n * k →
      ((List.range n).map (fun i => (l.drop (i * k)).take k)).flatten = l := by
  intro n
  induction n with
  | zero =>
    intro l h
    have hnil : l = [] := List.eq_nil_of_length_eq_zero (by omega)
    subst hnil
    rfl
  | succ n ih =>
    intro l h
    rw [List.range_succ_eq_map, List.map_cons, List.flatten_cons, List.map_map]
    have hrw : ((fun i => (l.drop (i * k)).take k) ∘ Nat.succ) =
        (fun i => (((l.drop k).drop (i * k)).take k)) := by
      funext i
      show (l.drop ((i + 1) * k)).take k = ((l.drop k).drop (i * k)).take k
      rw [List.drop_drop]
      congr 2
      ring
    rw [Nat.succ_mul] at h
    rw [hrw, ih (l.drop k) (by simp only [List.length_drop]; omega)]
    simp only [Nat.zero_mul, List.drop_zero]
    exact List.take_append_drop k l

/-- Claim C6: `pages` equals the ceiling of `total / limit` computed before
pagination, and the pages `1..pages`, concatenated in order, are exactly the
full filtered, sorted result — a permutation of the filtered-pre-pagination
set, so each matching record appears exactly once. -/
theorem search_pagination_reconstructs
    (users : List User) (store : List Visit) (q : SearchQuery)
    (hk : 1 ≤ q.limit) :
    ((searchVisits users store q).pages : ℤ) =
      ⌈((searchVisits users store q).total : ℚ) / (q.limit : ℚ)⌉ ∧
    ((List.range (searchVisits users store q).pages).map
        (fun i => (searchVisits users store { q with page := i + 1 }).visits)).flatten =
      searchSorted users store q ∧
    (searchSorted users store q).Perm (filteredJoined users store q) := by
  have hceil := ceil_natDiv (searchTotal users store q) q.limit hk
  have hpages : (searchVisits users store q).pages =
      (searchTotal users store q + q.limit - 1) / q.limit := by
    show searchPages users store q = _
    rw [searchPages, hceil]
    exact Int.toNat_natCast _
  refine ⟨?_, ?_, List.perm_insertionSort _ _⟩
  · show ((searchPages users store q : ℕ) : ℤ) =
      ⌈((searchTotal users store q : ℕ) : ℚ) / (q.limit : ℚ)⌉
    rw [searchPages, hceil, Int.toNat_natCast]
  · have hlen : (searchSorted users store q).length = searchTotal users store q :=
      (List.perm_insertionSort _ _).length_eq
    have hbound : (searchSorted users store q).length ≤
        (searchVisits users store q).pages * q.limit := by
      rw [hlen, hpages]
      have hdm := Nat.div_add_mod (searchTotal users store q + q.limit - 1) q.limit
      have hmlt : (searchTotal users store q + q.limit - 1) % q.limit < q.limit :=
        Nat.mod_lt _ (by omega)
      have hmul : q.limit * ((searchTotal users store q + q.limit - 1) / q.limit) =
          ((searchTotal users store q + q.limit - 1) / q.limit) * q.limit :=
        Nat.mul_comm ..
      omega
    have hitems : (fun i => (searchVisits users store { q with page := i + 1 }).visits) =
        (fun i => ((searchSorted users store q).drop (i * q.limit)).take q.limit) := by
      funext i
      rfl
    rw [hitems]
    exact flatten_chunks q.limit _ _ hbound

/-- Witness for C6 at a concrete two-record store and the default query. -/
theorem search_pagination_reconstructs_witness :
    1 ≤ defaultQuery.limit ∧
    (((searchVisits sampleUsers tieStore defaultQuery).pages : ℤ) =
      ⌈((searchVisits sampleUsers tieStore defaultQuery).total : ℚ) /
        (defaultQuery.limit : ℚ)⌉ ∧
    ((List.range (searchVisits sampleUsers tieStore defaultQuery).pages).map
        (fun i =>
          (searchVisits sampleUsers tieStore { defaultQuery with page := i + 1 }).visits)).flatten =
      searchSorted sampleUsers tieStore defaultQuery ∧
    (searchSorted sampleUsers tieStore defaultQuery).Perm
      (filteredJoined sampleUsers tieStore defaultQuery)) :=
  ⟨by decide,
    search_pagination_reconstructs sampleUsers tieStore defaultQuery (by decide)⟩

/-! Claim C7. -/

/-- Counterexample to C7 as stated: the `$sort` specification is only
`{[sortBy]: direction}`; no ascending-id tie-break exists.  With two records
tying on the default `scheduledDate` key and stored larger-id-first, the
result keeps them in store order `[2, 1]`, not ascending id order. -/
theorem equal_sort_keys_not_ordered_by_id :
    keyVal defaultQuery.sortBy joinedTwo = keyVal defaultQuery.sortBy joinedOne ∧
    joinedTwo.visit.id = 2 ∧ joinedOne.visit.id = 1 ∧
    (searchVisits sampleUsers tieStore defaultQuery).visits.map
      (fun j => j.visit.id) = [2, 1] := by
  have hfj : filteredJoined sampleUsers tieStore defaultQuery = [joinedTwo, joinedOne] := by
    decide
  have hcond : sortLe defaultQuery joinedTwo joinedOne := by
    norm_num [sortLe, keyVal, defaultQuery, joinedTwo, joinedOne, visitTwo, visitOne,
      sampleVisit]
  have hsort : searchSorted sampleUsers tieStore defaultQuery = [joinedTwo, joinedOne] := by
    rw [searchSorted, hfj]
    rw [List.insertionSort, List.insertionSort, List.insertionSort,
      List.orderedInsert, List.orderedInsert, if_pos hcond]
  refine ⟨?_, rfl, rfl, ?_⟩
  · norm_num [keyVal, defaultQuery, joinedTwo, joinedOne, visitTwo, visitOne, sampleVisit]
  · show (searchItems sampleUsers tieStore defaultQuery).map (fun j => j.visit.id) = [2, 1]
    rw [searchItems, hsort]
    rfl

/-- Claim C7 as amended: the result is sorted by the requested key alone; it is
a permutation of the filtered set, and any pair already in comparator order in
the pre-sort pipeline — in particular any pair with equal keys — keeps that
relative order (the sort is stable over pipeline order, with no id
tie-break).  The pipeline is a pure function of its inputs, so repeated calls
return the identical ordering. -/
theorem search_sort_by_requested_key_stable
    (users : List User) (store : List Visit) (q : SearchQuery) :
    List.Sorted (sortLe q) (searchSorted users store q) ∧
    (searchSorted users store q).Perm (filteredJoined users store q) ∧
    (∀ a b, List.Sublist [a, b] (filteredJoined users store q) → sortLe q a b →
      List.Sublist [a, b] (searchSorted users store q)) := by
  refine ⟨List.sorted_insertionSort _ _, List.perm_insertionSort _ _, ?_⟩
  intro a b hsub hab
  exact List.pair_sublist_insertionSort hab hsub

/-- Witness for the amended C7: the two tying records of the counterexample
keep their pipeline order in the sorted output. -/
theorem search_sort_by_requested_key_stable_witness :
    (List.Sublist [joinedTwo, joinedOne] (filteredJoined sampleUsers tieStore defaultQuery) ∧
      sortLe defaultQuery joinedTwo joinedOne) ∧
    List.Sublist [joinedTwo, joinedOne] (searchSorted sampleUsers tieStore defaultQuery) := by
  have hsub : List.Sublist [joinedTwo, joinedOne]
      (filteredJoined sampleUsers tieStore defaultQuery) := by
    have hfj : filteredJoined sampleUsers tieStore defaultQuery = [joinedTwo, joinedOne] := by
      decide
    rw [hfj]
  have hab : sortLe defaultQuery joinedTwo joinedOne := by
    norm_num [sortLe, keyVal, defaultQuery, joinedTwo, joinedOne, visitTwo, visitOne,
      sampleVisit]
  exact ⟨⟨hsub, hab⟩,
    (search_sort_by_requested_key_stable sampleUsers tieStore defaultQuery).2.2
      joinedTwo joinedOne hsub hab⟩

/-! Claim C8. -/

/-- `Int.log 2` is pinned down by any pair of bracketing powers of two. -/
lemma intLog2_eq (q : ℚ) (e : ℤ) (h0 : 0 < q)
    (h1 : (2 : ℚ) ^ e ≤ q) (h2 : q < (2 : ℚ) ^ (e + 1)) :
    Int.log 2 q = e := by
  have hb : (1 : ℕ) < 2 := by norm_num
  have ha := Int.zpow_log_le_self (b := 2) (r := q) hb h0
  have hc := Int.lt_zpow_succ_log_self (b := 2) hb q
  have hone : (1 : ℚ) < 2 := by norm_num
  have l1 := (zpow_lt_zpow_iff_right₀ hone).mp (lt_of_le_of_lt ha h2)
  have l2 := (zpow_lt_zpow_iff_right₀ hone).mp (lt_of_le_of_lt h1 hc)
  omega

/-- `roundEven` is exact on integers. -/
lemma roundEven_intCast (c : ℤ) : roundEven (c : ℚ) = c := by
  rw [roundEven, Int.floor_intCast]
  norm_num

/-- Evaluation rule for `fl` on a positive value with known exponent and known
rounded mantissa. -/
lemma fl_pos_eval (q : ℚ) (e m : ℤ) (h0 : 0 < q)
    (h1 : (2 : ℚ) ^ e ≤ q) (h2 : q < (2 : ℚ) ^ (e + 1))
    (hm : roundEven (q * (2 : ℚ) ^ (52 - e)) = m) :
    fl q = (m : ℚ) * (2 : ℚ) ^ (e - 52) := by
  have hne : ¬ q = 0 := by
    intro hq
    rw [hq] at h0
    exact lt_irrefl 0 h0
  rw [fl, if_neg hne, if_pos h0, intLog2_eq q e h0 h1 h2, hm]

/-- `fl` is exact on naturals below `2 ^ 53` (53-bit integers are
representable in binary64). -/
lemma fl_natCast_of_lt (m : ℕ) (h2 : m < 2 ^ 53) : fl (m : ℚ) = (m : ℚ) := by
  rcases Nat.eq_zero_or_pos m with rfl | h1
  · simp [fl]
  have h0 : (0 : ℚ) < m := by exact_mod_cast h1
  have hb1 : (2 : ℚ) ^ (Int.log 2 (m : ℚ)) ≤ m :=
    Int.zpow_log_le_self (by norm_num) h0
  have hb2 : (m : ℚ) < 2 ^ (Int.log 2 (m : ℚ) + 1) :=
    Int.lt_zpow_succ_log_self (by norm_num) _
  set e := Int.log 2 (m : ℚ) with he
  have he0 : 0 ≤ e := by
    by_contra hneg
    push_neg at hneg
    have hle : (2 : ℚ) ^ (e + 1) ≤ (2 : ℚ) ^ (0 : ℤ) :=
      zpow_le_zpow_right₀ (by norm_num) (by omega)
    have hm1 : (1 : ℚ) ≤ m := by exact_mod_cast h1
    rw [zpow_zero] at hle
    linarith
  have he52 : e ≤ 52 := by
    by_contra hgt
    push_neg at hgt
    have h53 : (2 : ℚ) ^ (53 : ℤ) ≤ (2 : ℚ) ^ e :=
      zpow_le_zpow_right₀ (by norm_num) (by omega)
    have hmq : (m : ℚ) < (2 : ℚ) ^ (53 : ℤ) := by
      calc (m : ℚ) < ((2 ^ 53 : ℕ) : ℚ) := by exact_mod_cast h2
        _ = (2 : ℚ) ^ (53 : ℤ) := by norm_num
    linarith
  have hs : (0 : ℤ) ≤ 52 - e := by omega
  have hscale : (m : ℚ) * (2 : ℚ) ^ (52 - e) =
      (((m * 2 ^ (52 - e).toNat : ℕ) : ℤ) : ℚ) := by
    symm
    push_cast
    rw [← zpow_natCast (2 : ℚ) (52 - e).toNat, Int.toNat_of_nonneg hs]
  have hround : roundEven ((m : ℚ) * (2 : ℚ) ^ (52 - e)) =
      ((m * 2 ^ (52 - e).toNat : ℕ) : ℤ) := by
    rw [hscale, roundEven_intCast]
  have heval := fl_pos_eval (m : ℚ) e _ h0 hb1 hb2 hround
  rw [heval]
  push_cast
  rw [← zpow_natCast (2 : ℚ) (52 - e).toNat, Int.toNat_of_nonneg hs,
    mul_assoc, ← zpow_add₀ (by norm_num : (2 : ℚ) ≠ 0)]
  have hzero : 52 - e + (e - 52) = 0 := by ring
  rw [hzero, zpow_zero, mul_one]

/-- Counterexample to C8 as stated: with the double nearest `0.1` as
`unitPrice` and `quantity = 3`, the binary64 product the code stores differs
from the exact decimal product `unitPrice × 3` — binary floating-point
rounding drift the exact-arithmetic claim rules out.  The first conjunct
certifies the input itself is an exactly representable binary64 value. -/
theorem monetary_float_drift :
    fl tenthFloat = tenthFloat ∧
    totalPriceFloat tenthFloat 3 ≠ tenthFloat * 3 := by
  constructor
  · have h0 : (0 : ℚ) < tenthFloat := by norm_num [tenthFloat]
    have hb1 : (2 : ℚ) ^ (-4 : ℤ) ≤ tenthFloat := by norm_num [tenthFloat]
    have hb2 : tenthFloat < (2 : ℚ) ^ ((-4 : ℤ) + 1) := by norm_num [tenthFloat]
    have harg : tenthFloat * (2 : ℚ) ^ ((52 : ℤ) - (-4)) =
        ((7205759403792794 : ℤ) : ℚ) := by
      norm_num [tenthFloat]
    have hround : roundEven (tenthFloat * (2 : ℚ) ^ ((52 : ℤ) - (-4))) =
        7205759403792794 := by
      rw [harg, roundEven_intCast]
    rw [fl_pos_eval tenthFloat (-4) 7205759403792794 h0 hb1 hb2 hround]
    norm_num [tenthFloat]
  · have h0 : (0 : ℚ) < tenthFloat * 3 := by norm_num [tenthFloat]
    have hb1 : (2 : ℚ) ^ (-2 : ℤ) ≤ tenthFloat * 3 := by norm_num [tenthFloat]
    have hb2 : tenthFloat * 3 < (2 : ℚ) ^ ((-2 : ℤ) + 1) := by norm_num [tenthFloat]
    have hfloor : ⌊(10808639105689191 : ℚ) / 2⌋ = 5404319552844595 := by
      rw [Int.floor_eq_iff]
      constructor
      · norm_num
      · norm_num
    have harg : tenthFloat * 3 * (2 : ℚ) ^ ((52 : ℤ) - (-2)) =
        (10808639105689191 : ℚ) / 2 := by
      norm_num [tenthFloat]
    have hround : roundEven (tenthFloat * 3 * (2 : ℚ) ^ ((52 : ℤ) - (-2))) =
        5404319552844596 := by
      rw [harg, roundEven, hfloor]
      rw [if_neg (by norm_num), if_neg (by norm_num), if_neg (by norm_num)]
      norm_num
    have heval := fl_pos_eval (tenthFloat * 3) (-2) 5404319552844596 h0 hb1 hb2 hround
    have hcast : ((3 : ℕ) : ℚ) = 3 := by norm_num
    rw [totalPriceFloat, jsMul, hcast, heval]
    norm_num [tenthFloat]

/-- Claim C8 as amended: monetary arithmetic is binary64 floating point, so
stored values equal the binary64 rounding of the defining formulas, which can
drift from the exact decimal results (see the counterexample); it is exact
whenever the operands and the exact result are 53-bit representable — in
particular for natural-number unit prices with `unitPrice × quantity < 2^53`. -/
theorem monetary_float_exact_on_integer_units (n k : ℕ) (h : n * k < 2 ^ 53) :
    totalPriceFloat (n : ℚ) k = (n : ℚ) * (k : ℚ) := by
  have hcast : (n : ℚ) * (k : ℚ) = ((n * k : ℕ) : ℚ) := by push_cast; ring
  rw [totalPriceFloat, jsMul, hcast, fl_natCast_of_lt _ h]

/-- Witness for the amended C8: `50 × 2` is computed exactly in binary64. -/
theorem monetary_float_exact_on_integer_units_witness :
    50 * 2 < 2 ^ 53 ∧
    totalPriceFloat ((50 : ℕ) : ℚ) 2 = ((50 : ℕ) : ℚ) * ((2 : ℕ) : ℚ) :=
  ⟨by norm_num, monetary_float_exact_on_integer_units 50 2 (by norm_num)⟩

end Clinic
